import Mathlib

/-!
Shallow embedding of the `remarkable-highlights` repository
(`remarkable_highlights/extract.py` and `remarkable_highlights/parsing.py`)
and proofs about its documented behaviour.

Geometry performed by the external `shapely` library is embedded with exact
rational arithmetic: polygon containment and centroids are modelled for
axis-aligned rectangles (the shape of every word box), and ring areas by the
shoelace formula, matching shapely's documented semantics for those inputs.
-/

namespace RemarkableHighlights

/-! ## Run merger (`extract.py`, `extract_text_highlights`)

The Python code builds `runs` with `itertools.groupby` over the word list
keyed by the highlighted flag, marks each run as kept when it is highlighted
or short (`is_selected or len(run) <= max_skip_len`), re-groups by that mark,
keeps the `True` groups and space-joins their words. -/

/-- `itertools.groupby` over `(word, highlighted)` pairs keyed on the flag:
maximal runs of consecutive words with equal highlighted state. -/
def groupRuns : List (String × Bool) → List (Bool × List String)
  | [] => []
  | (w, b) :: rest =>
    match groupRuns rest with
    | (b2, ws) :: gs => if b = b2 then (b, w :: ws) :: gs else (b, [w]) :: (b2, ws) :: gs
    | [] => [(b, [w])]

/-- The `marked_skips` comprehension: a run is kept when it is highlighted or
no longer than `max_skip_len`. -/
def markSkips (max_skip_len : Nat) (runs : List (Bool × List String)) :
    List (Bool × List String) :=
  runs.map (fun p => (p.1 || decide (p.2.length ≤ max_skip_len), p.2))

/-- The second `groupby` (over `marked_skips` keyed on the mark), with
`chain.from_iterable` already applied: adjacent runs with equal mark are
concatenated. -/
def groupMarked : List (Bool × List String) → List (Bool × List String)
  | [] => []
  | (b, ws) :: rest =>
    match groupMarked rest with
    | (b2, ws2) :: gs => if b = b2 then (b, ws ++ ws2) :: gs else (b, ws) :: (b2, ws2) :: gs
    | [] => [(b, ws)]

/-- `extract_text_highlights`, run-merging core: the input is the page's word
list in reading order, each word already tagged by `is_highlighted` on its
box (the geometric test is applied upstream). Returns the space-joined text
of every kept merged run, in order. -/
def extract_text_highlights (word_states : List (String × Bool)) (max_skip_len : Nat) :
    List String :=
  ((groupMarked (markSkips max_skip_len (groupRuns word_states))).filter (fun p => p.1)).map
    (fun p => String.intercalate " " p.2)

/-- One step of both `groupby`s: prepend a run `(b, ws)`, coalescing with the
first existing group when the keys agree. -/
def glueRun (b : Bool) (ws : List String) (gs : List (Bool × List String)) :
    List (Bool × List String) :=
  match gs with
  | (b2, ws2) :: rest => if b = b2 then (b, ws ++ ws2) :: rest else (b, ws) :: (b2, ws2) :: rest
  | [] => [(b, ws)]

theorem groupRuns_cons (w : String) (b : Bool) (rest : List (String × Bool)) :
    groupRuns ((w, b) :: rest) = glueRun b [w] (groupRuns rest) := by
  cases h : groupRuns rest with
  | nil => simp [groupRuns, glueRun, h]
  | cons g gs =>
    cases g with
    | mk b2 ws => by_cases hb : b = b2 <;> simp [groupRuns, glueRun, h, hb]

theorem groupMarked_cons (b : Bool) (ws : List String) (rest : List (Bool × List String)) :
    groupMarked ((b, ws) :: rest) = glueRun b ws (groupMarked rest) := by
  cases h : groupMarked rest with
  | nil => simp [groupMarked, glueRun, h]
  | cons g gs =>
    cases g with
    | mk b2 ws2 => by_cases hb : b = b2 <;> simp [groupMarked, glueRun, h, hb]

theorem glueRun_glueRun (b : Bool) (w : String) (ws : List String)
    (gs : List (Bool × List String)) :
    glueRun b [w] (glueRun b ws gs) = glueRun b (w :: ws) gs := by
  cases gs with
  | nil => simp [glueRun]
  | cons g rest =>
    cases g with
    | mk b2 ws2 =>
      by_cases h : b = b2
      · simp [glueRun, h]
      · simp [glueRun, h]

/-- `groupRuns` over a constant-flag nonempty block followed by anything. -/
theorem groupRuns_const_block (c : Bool) (w : String) (xs : List String)
    (rest : List (String × Bool)) :
    groupRuns ((w :: xs).map (fun t => (t, c)) ++ rest)
      = glueRun c (w :: xs) (groupRuns rest) := by
  induction xs generalizing w with
  | nil => simpa using groupRuns_cons w c rest
  | cons y ys ih =>
    have h1 : ((w :: y :: ys).map (fun t => (t, c)) ++ rest)
        = (w, c) :: ((y :: ys).map (fun t => (t, c)) ++ rest) := by simp
    rw [h1, groupRuns_cons, ih y, glueRun_glueRun]

/-- C1: the sequence `[T,T,F,F,F,T,T]` with `max_skip_len = 3` merges into one
run of all 7 words; with `max_skip_len = 2` it splits into two runs (words 1-2
and 6-7) and words 3-5 appear in no output run; in general an unhighlighted
run of exactly `max_skip_len` words between two highlighted runs is bridged
(the `<=` threshold is inclusive). -/
theorem runMerger_bounded_skip :
    (extract_text_highlights
        [("w1", true), ("w2", true), ("w3", false), ("w4", false), ("w5", false),
         ("w6", true), ("w7", true)] 3 = ["w1 w2 w3 w4 w5 w6 w7"]) ∧
    (extract_text_highlights
        [("w1", true), ("w2", true), ("w3", false), ("w4", false), ("w5", false),
         ("w6", true), ("w7", true)] 2 = ["w1 w2", "w6 w7"]) ∧
    (∀ (max_skip_len : Nat) (a g b : List String), a ≠ [] → b ≠ [] →
      g.length = max_skip_len →
      extract_text_highlights
          (a.map (fun w => (w, true)) ++ g.map (fun w => (w, false))
            ++ b.map (fun w => (w, true))) max_skip_len
        = [String.intercalate " " (a ++ g ++ b)]) := by
  refine ⟨by decide, by decide, ?_⟩
  intro max_skip_len a g b ha hb hg
  obtain ⟨wa, a2, rfl⟩ := List.exists_cons_of_ne_nil ha
  obtain ⟨wb, b2, rfl⟩ := List.exists_cons_of_ne_nil hb
  have hbgr : groupRuns ((wb :: b2).map (fun w => (w, true)))
      = [(true, wb :: b2)] := by
    have := groupRuns_const_block true wb b2 []
    simpa [glueRun, groupRuns] using this
  cases g with
  | nil =>
    have hmsl : max_skip_len = 0 := by simpa using hg.symm
    subst hmsl
    have h1 : ((wa :: a2).map (fun w => (w, true)) ++ [].map (fun w => (w, false))
          ++ (wb :: b2).map (fun w => (w, true)))
        = ((wa :: a2) ++ wb :: b2).map (fun w => (w, true)) := by simp
    rw [extract_text_highlights, h1]
    have h2 : (wa :: a2) ++ wb :: b2 = wa :: (a2 ++ wb :: b2) := by simp
    rw [h2]
    have h3 := groupRuns_const_block true wa (a2 ++ wb :: b2) []
    simp only [List.append_nil] at h3
    rw [h3]
    simp [glueRun, groupRuns, markSkips, groupMarked]
  | cons wg g2 =>
    rw [extract_text_highlights, List.append_assoc,
      groupRuns_const_block true wa a2
        ((wg :: g2).map (fun w => (w, false)) ++ (wb :: b2).map (fun w => (w, true))),
      groupRuns_const_block false wg g2 ((wb :: b2).map (fun w => (w, true))), hbgr]
    have hlen : g2.length + 1 ≤ max_skip_len := le_of_eq (by simpa using hg)
    simp [glueRun, markSkips, groupMarked, hlen]

/-- Witness for `runMerger_bounded_skip`: the general bridging clause applied
at `a = [x]`, `g = [y]`, `b = [z]`, `max_skip_len = 1`. -/
theorem runMerger_bounded_skip_witness :
    extract_text_highlights [("x", true), ("y", false), ("z", true)] 1 = ["x y z"] := by
  have h := runMerger_bounded_skip.2.2 1 ["x"] ["y"] ["z"]
    (by decide) (by decide) rfl
  simpa using h

/-- C2 counterexample: a trailing bridgeable gap IS merged into the preceding
highlighted run. For `[("a",T),("b",F)]` with `max_skip_len = 1` the claim
predicts the output run `"a"` (gap word `"b"` excluded); the code produces
`"a b"`. -/
theorem runMerger_trailing_gap_counterexample :
    extract_text_highlights [("a", true), ("b", false)] 1 = ["a b"] ∧
    extract_text_highlights [("a", true), ("b", false)] 1 ≠ ["a"] := by
  exact ⟨by decide, by decide⟩

/-- C2 amended: a trailing unhighlighted run of length `<= max_skip_len` after
the last highlighted run is marked bridgeable and merged into the preceding
output run — gap words are included even with no highlighted run after them. -/
theorem runMerger_trailing_gap_merged (max_skip_len : Nat) (h g : List String)
    (hh : h ≠ []) (hg : g ≠ []) (hlen : g.length ≤ max_skip_len) :
    extract_text_highlights
        (h.map (fun w => (w, true)) ++ g.map (fun w => (w, false))) max_skip_len
      = [String.intercalate " " (h ++ g)] := by
  obtain ⟨wh, h2, rfl⟩ := List.exists_cons_of_ne_nil hh
  obtain ⟨wg, g2, rfl⟩ := List.exists_cons_of_ne_nil hg
  rw [extract_text_highlights,
    groupRuns_const_block true wh h2 ((wg :: g2).map (fun w => (w, false)))]
  have hgr : groupRuns ((wg :: g2).map (fun w => (w, false)))
      = [(false, wg :: g2)] := by
    have := groupRuns_const_block false wg g2 []
    simpa [glueRun, groupRuns] using this
  rw [hgr]
  have hlen2 : g2.length + 1 ≤ max_skip_len := by simpa using hlen
  simp [glueRun, markSkips, groupMarked, hlen2]

/-- Witness for `runMerger_trailing_gap_merged` at `h = ["a"]`, `g = ["b"]`,
`max_skip_len = 1`. -/
theorem runMerger_trailing_gap_merged_witness :
    extract_text_highlights [("a", true), ("b", false)] 1 = ["a b"] := by
  have h := runMerger_trailing_gap_merged 1 ["a"] ["b"]
    (by decide) (by decide) (by decide)
  simpa using h

/-- C3 (code bug): a page whose words are all unhighlighted is supposed to
yield zero output runs, but when the whole page has at most `max_skip_len`
words its single unhighlighted run is marked bridgeable and emitted: the code
outputs the never-highlighted text. Failing input: one unhighlighted word,
`max_skip_len = 3`. -/
theorem runMerger_all_unhighlighted_bug :
    extract_text_highlights [("lonely", false)] 3 = ["lonely"] ∧
    (∀ (ws : List String) (max_skip_len : Nat), ws ≠ [] →
      ws.length ≤ max_skip_len →
      extract_text_highlights (ws.map (fun w => (w, false))) max_skip_len
        = [String.intercalate " " ws]) := by
  refine ⟨by decide, ?_⟩
  intro ws max_skip_len hne hlen
  obtain ⟨w, ws2, rfl⟩ := List.exists_cons_of_ne_nil hne
  rw [extract_text_highlights]
  have h1 : groupRuns ((w :: ws2).map (fun t => (t, false)))
      = [(false, w :: ws2)] := by
    have := groupRuns_const_block false w ws2 []
    simpa [glueRun, groupRuns] using this
  rw [h1]
  have hlen2 : ws2.length + 1 ≤ max_skip_len := by simpa using hlen
  simp [markSkips, groupMarked, hlen2]

/-- Witness for `runMerger_all_unhighlighted_bug` at `ws = ["u","v"]`,
`max_skip_len = 2`. -/
theorem runMerger_all_unhighlighted_bug_witness :
    extract_text_highlights [("u", false), ("v", false)] 2 = ["u v"] := by
  have h := runMerger_all_unhighlighted_bug.2 ["u", "v"] 2 (by decide) (by decide)
  simpa using h

/-! ## Word-highlight matcher (`extract.py`, `word_is_highlighted`)

The geometric predicates are calls into shapely; they are embedded here with
exact rational arithmetic for axis-aligned rectangles (the form of every word
box, and of the highlight geometry in every claim about the matcher):
`contains` holds exactly on the interior, the centroid of a rectangle is its
midpoint, and the intersection of two rectangles is a rectangle. -/

abbrev Point := ℚ × ℚ

/-- `shapely.geometry.box(x0, y0, x1, y1)`: an axis-aligned rectangle. -/
structure Box where
  x0 : ℚ
  y0 : ℚ
  x1 : ℚ
  y1 : ℚ
  deriving DecidableEq

/-- shapely `centroid` of a rectangle: its midpoint. -/
def Box.centroid (b : Box) : Point := ((b.x0 + b.x1) / 2, (b.y0 + b.y1) / 2)

/-- shapely `Polygon.contains(point)` for a rectangle: true iff the point
lies in the open interior; points on the boundary are NOT contained. -/
def rectContains (r : Box) (p : Point) : Bool :=
  decide (r.x0 < p.1 ∧ p.1 < r.x1 ∧ r.y0 < p.2 ∧ p.2 < r.y1)

def Box.area (b : Box) : ℚ := (b.x1 - b.x0) * (b.y1 - b.y0)

/-- shapely `a.intersection(b).area` for two axis-aligned rectangles. -/
def rectIntersectionArea (a b : Box) : ℚ :=
  max 0 (min a.x1 b.x1 - max a.x0 b.x0) * max 0 (min a.y1 b.y1 - max a.y0 b.y0)

/-- `WordSelectionMethod = Enum("WordSelectionMethod", "CENTROID AREA_RATIO")`. -/
inductive WordSelectionMethod where
  | CENTROID : WordSelectionMethod
  | AREA_RATIO : WordSelectionMethod
  deriving DecidableEq

def DEFAULT_AREA_RATIO : ℚ := 1 / 2

/-- `word_is_highlighted` (extract.py). The unknown-method `raise ValueError`
branch is unreachable here because the Lean enum is closed; `extract_highlights`
below models the name-to-enum conversion where the unknown name actually
fails. -/
def word_is_highlighted (method : WordSelectionMethod) (highlight_poly : Box)
    (word_box : Box) : Bool :=
  match method with
  | WordSelectionMethod.CENTROID => rectContains highlight_poly word_box.centroid
  | WordSelectionMethod.AREA_RATIO =>
    decide (rectIntersectionArea highlight_poly word_box / word_box.area
      > DEFAULT_AREA_RATIO)

/-- Membership in the boundary of a rectangle: in the closed rectangle but
not in its interior. -/
def Box.onBoundary (r : Box) (p : Point) : Prop :=
  (r.x0 ≤ p.1 ∧ p.1 ≤ r.x1 ∧ r.y0 ≤ p.2 ∧ p.2 ≤ r.y1) ∧
  ¬(r.x0 < p.1 ∧ p.1 < r.x1 ∧ r.y0 < p.2 ∧ p.2 < r.y1)

/-- C4 counterexample: the word box `box(-5,-1,5,1)` has centroid `(0,0)`,
which lies exactly on the boundary of the highlight rectangle `box(0,0,10,10)`;
the claim says it is matched (boundary-inclusive), but shapely `contains` is
interior-only, so the code does not match it. -/
theorem centroid_boundary_counterexample :
    Box.onBoundary ⟨0, 0, 10, 10⟩ (Box.centroid ⟨-5, -1, 5, 1⟩) ∧
    word_is_highlighted WordSelectionMethod.CENTROID ⟨0, 0, 10, 10⟩ ⟨-5, -1, 5, 1⟩
      = false := by
  constructor
  · constructor
    · norm_num [Box.centroid]
    · norm_num [Box.centroid]
  · simp only [word_is_highlighted, rectContains, Box.centroid]
    norm_num

/-- C4 amended: under the Centroid policy a word whose centroid lies strictly
inside the highlight rectangle is matched, a word whose centroid lies exactly
on the boundary is NOT matched (shapely `contains` is boundary-exclusive),
and a word whose box lies entirely outside is not matched. -/
theorem centroid_matcher_amended (R W : Box) :
    ((R.x0 < W.centroid.1 ∧ W.centroid.1 < R.x1 ∧
        R.y0 < W.centroid.2 ∧ W.centroid.2 < R.y1) →
      word_is_highlighted WordSelectionMethod.CENTROID R W = true) ∧
    (R.onBoundary W.centroid →
      word_is_highlighted WordSelectionMethod.CENTROID R W = false) ∧
    ((W.x0 ≤ W.x1 ∧ W.y0 ≤ W.y1) →
      (W.x1 < R.x0 ∨ R.x1 < W.x0 ∨ W.y1 < R.y0 ∨ R.y1 < W.y0) →
      word_is_highlighted WordSelectionMethod.CENTROID R W = false) := by
  refine ⟨?_, ?_, ?_⟩
  · intro h
    simp only [word_is_highlighted, rectContains]
    exact decide_eq_true h
  · intro h
    simp only [word_is_highlighted, rectContains]
    exact decide_eq_false h.2
  · intro hW hdisj
    simp only [word_is_highlighted, rectContains]
    apply decide_eq_false
    intro hin
    simp only [Box.centroid] at hin
    obtain ⟨h1, h2, h3, h4⟩ := hin
    rcases hdisj with h | h | h | h <;> [linarith [hW.1]; linarith [hW.1];
      linarith [hW.2]; linarith [hW.2]]

/-- Witness for `centroid_matcher_amended`: the strictly-inside clause at
highlight `box(0,0,10,10)` and word box `box(4,4,6,6)` (centroid `(5,5)`). -/
theorem centroid_matcher_amended_witness :
    word_is_highlighted WordSelectionMethod.CENTROID ⟨0, 0, 10, 10⟩ ⟨4, 4, 6, 6⟩
      = true :=
  (centroid_matcher_amended ⟨0, 0, 10, 10⟩ ⟨4, 4, 6, 6⟩).1 (by norm_num [Box.centroid])

/-! ## Highlight classifier (`extract.py`, `classify_highlight`) -/

/-- A ring of a shapely polygon: its ordered vertices (closed implicitly). -/
abbrev Ring := List Point

/-- One term of the shoelace sum. -/
def cross (p q : Point) : ℚ := p.1 * q.2 - q.1 * p.2

def shoelaceAux (first : Point) : List Point → ℚ
  | [] => 0
  | [q] => cross q first
  | q :: r :: rest => cross q r + shoelaceAux first (r :: rest)

/-- Signed doubled area of the closed ring through the given points. -/
def shoelaceSum : Ring → ℚ
  | [] => 0
  | p :: ps => shoelaceAux p (p :: ps)

/-- shapely `Polygon(ring).area`: absolute shoelace area. -/
def ringArea (r : Ring) : ℚ := |shoelaceSum r| / 2

/-- A shapely polygon: an exterior ring and a list of interior rings. -/
structure ShapePoly where
  exterior : Ring
  interiors : List Ring
  deriving DecidableEq

/-- `HighlightType = Enum("HighlightType", "TEXTUAL SELECTION")`. -/
inductive HighlightType where
  | TEXTUAL : HighlightType
  | SELECTION : HighlightType
  deriving DecidableEq

/-- `classify_highlight` (extract.py): `SELECTION` iff the polygon has exactly
one interior ring whose enclosed area strictly exceeds the threshold;
`TEXTUAL` otherwise. A pure function of the polygon and the threshold. -/
def classify_highlight (highlight_poly : ShapePoly) (clipping_area_threshold : ℚ) :
    HighlightType :=
  match highlight_poly.interiors with
  | [r] =>
    if ringArea r > clipping_area_threshold then HighlightType.SELECTION
    else HighlightType.TEXTUAL
  | _ => HighlightType.TEXTUAL

/-- C5: the classifier returns `SELECTION` iff the shape has exactly one
interior ring of area strictly above the threshold; zero rings, two or more
rings, or a single ring of area at most the threshold (equality included)
give `TEXTUAL`. -/
theorem classifier_selection_iff (poly : ShapePoly) (thr : ℚ) :
    (classify_highlight poly thr = HighlightType.SELECTION ↔
      ∃ r, poly.interiors = [r] ∧ ringArea r > thr) ∧
    (poly.interiors = [] → classify_highlight poly thr = HighlightType.TEXTUAL) ∧
    (2 ≤ poly.interiors.length → classify_highlight poly thr = HighlightType.TEXTUAL) ∧
    (∀ r, poly.interiors = [r] → ringArea r ≤ thr →
      classify_highlight poly thr = HighlightType.TEXTUAL) := by
  obtain ⟨ext, ints⟩ := poly
  match ints with
  | [] => simp [classify_highlight]
  | [r] =>
    by_cases h : ringArea r > thr
    · refine ⟨by simp [classify_highlight, h], by simp, by simp, ?_⟩
      intro r2 hr2 hle
      simp only [List.cons.injEq, and_true] at hr2
      subst hr2
      exact absurd h (not_lt.2 hle)
    · refine ⟨?_, by simp, by simp, ?_⟩
      · simp only [classify_highlight, if_neg h]
        constructor
        · intro hcon
          exact absurd hcon (by simp)
        · rintro ⟨r2, hr2, hgt⟩
          simp only [List.cons.injEq, and_true] at hr2
          subst hr2
          exact absurd hgt h
      · intro r2 hr2 hle
        simp [classify_highlight, h]
  | r1 :: r2 :: rest => simp [classify_highlight]

/-- Witness for `classifier_selection_iff`: a shape with zero interior rings
classifies `TEXTUAL`. -/
theorem classifier_selection_iff_witness :
    classify_highlight ⟨[], []⟩ 1000 = HighlightType.TEXTUAL :=
  (classifier_selection_iff ⟨[], []⟩ 1000).2.1 rfl

/-! ## Operator tokenizer (`parsing.py`, `tokenize_graphics`) -/

/-- `YELLOW` (parsing.py): the highlighter colour, deliberately kept as
literal strings. -/
def YELLOW : List String := ["1", "0.952941", "0.658824"]

/-- `PATH_OPS` (parsing.py), in source order, with the duplicated `"i"` kept.
The single-quote and double-quote operators are spelled via their character
codes 39 and 34. -/
def PATH_OPS : List String :=
  ["w", "J", "j", "M", "d", "ri", "i", "gs", "q", "Q", "cm", "m", "l", "c",
   "v", "y", "h", "re", "S", "s", "f", "F", "f*", "B", "B*", "b", "b*", "n",
   "W", "W*", "BT", "ET", "Tc", "Tw", "Tz", "TL", "Tf", "Tr", "Ts", "i",
   "Td", "TD", "Tm", "T*", "Tj", "TJ", (Char.ofNat 39).toString,
   (Char.ofNat 34).toString, "d0", "d1", "CS", "cs", "SC", "SCN", "sc",
   "scn", "G", "g", "RG", "rg", "K", "k", "sh", "BI", "ID", "EI", "Do",
   "MP", "DP", "BMC", "BDC", "EMC", "BX", "EX"]

/-- The loop of `tokenize_graphics`, with the mutable `arg_stack` made an
explicit accumulator. The raw byte stream has already been decoded as UTF-8
and split on whitespace into `tokens`. -/
def tokenizeFrom (arg_stack : List String) : List String → List (String × List String)
  | [] => []
  | t :: ts =>
    if t ∈ PATH_OPS then (t, arg_stack) :: tokenizeFrom [] ts
    else tokenizeFrom (arg_stack ++ [t]) ts

/-- `tokenize_graphics` (parsing.py): one `(operator, argument snapshot)`
record per operator token. -/
def tokenize_graphics (tokens : List String) : List (String × List String) :=
  tokenizeFrom [] tokens

theorem tokenizeFrom_map_fst (arg_stack : List String) (tokens : List String) :
    (tokenizeFrom arg_stack tokens).map Prod.fst
      = tokens.filter (fun t => decide (t ∈ PATH_OPS)) := by
  induction tokens generalizing arg_stack with
  | nil => rfl
  | cons t ts ih =>
    by_cases h : t ∈ PATH_OPS
    · simp [tokenizeFrom, h, ih]
    · simp [tokenizeFrom, h, ih]

theorem tokenizeFrom_block (pre : List String) (op : String) (post : List String)
    (arg_stack : List String) (hop : op ∈ PATH_OPS)
    (hpre : ∀ t ∈ pre, t ∉ PATH_OPS) :
    tokenizeFrom arg_stack (pre ++ op :: post)
      = (op, arg_stack ++ pre) :: tokenizeFrom [] post := by
  induction pre generalizing arg_stack with
  | nil => simp [tokenizeFrom, hop]
  | cons p pre2 ih =>
    have hp : p ∉ PATH_OPS := hpre p (by simp)
    have hrest : ∀ t ∈ pre2, t ∉ PATH_OPS := fun t ht => hpre t (by simp [ht])
    simp only [List.cons_append, tokenizeFrom, if_neg hp]
    simpa using ih (arg_stack ++ [p]) hrest

/-- C7: the tokenizer emits exactly one record per occurrence of a token in
`PATH_OPS`, in order (so tokens outside the set are never emitted); each
record's arguments are exactly the literal tokens seen since the previous
emitted operator, and the stack is cleared after each emission (the remaining
records are those of a fresh tokenization of the rest). -/
theorem tokenizer_completeness :
    (∀ tokens : List String,
      (tokenize_graphics tokens).map Prod.fst
        = tokens.filter (fun t => decide (t ∈ PATH_OPS))) ∧
    (∀ (pre : List String) (op : String) (post : List String),
      op ∈ PATH_OPS → (∀ t ∈ pre, t ∉ PATH_OPS) →
      tokenize_graphics (pre ++ op :: post)
        = (op, pre) :: tokenize_graphics post) := by
  constructor
  · intro tokens
    exact tokenizeFrom_map_fst [] tokens
  · intro pre op post hop hpre
    have h := tokenizeFrom_block pre op post [] hop hpre
    simpa [tokenize_graphics] using h

/-- Witness for `tokenizer_completeness`: the argument-snapshot clause at
`pre = ["1","0"]`, `op = "m"`, `post = []`. -/
theorem tokenizer_completeness_witness :
    tokenize_graphics ["1", "0", "m"] = [("m", ["1", "0"])] := by
  have h := tokenizer_completeness.2 ["1", "0"] "m" [] (by decide) (by decide)
  simpa [tokenize_graphics, tokenizeFrom] using h

/-! ## Highlight stroke interpreter (`parsing.py`, `highlighter_lines`) -/

/-- `shapely.geometry.CAP_STYLE` members used by `CAP_STYLES`. -/
inductive CapStyle where
  | round : CapStyle
  | flat : CapStyle
  | square : CapStyle
  deriving DecidableEq

/-- `shapely.geometry.JOIN_STYLE` members used by `JOIN_STYLES`. -/
inductive JoinStyle where
  | round : JoinStyle
  | mitre : JoinStyle
  | bevel : JoinStyle
  deriving DecidableEq

/-- `CAP_STYLES` (parsing.py): a dict keyed by the integers 1..3. A lookup
returning `none` is a Python `KeyError`. -/
def CAP_STYLES : List (Int × CapStyle) :=
  [(1, CapStyle.round), (2, CapStyle.flat), (3, CapStyle.square)]

/-- `JOIN_STYLES` (parsing.py). -/
def JOIN_STYLES : List (Int × JoinStyle) :=
  [(1, JoinStyle.round), (2, JoinStyle.mitre), (3, JoinStyle.bevel)]

/-- Digits of a nonempty all-digit character list as a natural number. -/
def digitsToNat : List Char → Option Nat
  | [] => none
  | cs =>
    cs.foldl
      (fun acc c =>
        match acc with
        | none => none
        | some n => if c.isDigit then some (n * 10 + (c.toNat - 48)) else none)
      (some 0)

/-- Python `float(s)` for the plain decimal literals emitted by the
annotation tool (optional sign, digits, optional fractional part): `none`
models a `ValueError`. -/
def parseFloat (s : String) : Option ℚ :=
  match s.toList with
  | [] => none
  | c0 :: rest0 =>
    let neg : Bool := c0 = '-'
    let body : List Char := if c0 = '-' ∨ c0 = '+' then rest0 else c0 :: rest0
    let mag : Option ℚ :=
      match body.splitOn '.' with
      | [ip] => (digitsToNat ip).map (fun n => (n : ℚ))
      | [ip, fp] =>
        if ip = [] ∧ fp = [] then none
        else
          match (if ip = [] then some 0 else digitsToNat ip),
              (if fp = [] then some 0 else digitsToNat fp) with
          | some i, some f => some ((i : ℚ) + (f : ℚ) / 10 ^ fp.length)
          | _, _ => none
      | _ => none
    mag.map (fun q => if neg then -q else q)

/-- Python `int(s)` (optional sign, digits); `none` models a `ValueError`. -/
def parseInt (s : String) : Option Int :=
  match s.toList with
  | [] => none
  | c0 :: rest0 =>
    let neg : Bool := c0 = '-'
    let body : List Char := if c0 = '-' ∨ c0 = '+' then rest0 else c0 :: rest0
    (digitsToNat body).map (fun n => if neg then -(n : Int) else (n : Int))

/-- One yellow stroke as yielded by `highlighter_lines`, immediately before
shapely buffers it by `width / 2` with the recorded styles (buffering is an
external geometry call and is not part of any claim). -/
structure Stroke where
  points : List Point
  width : ℚ
  cap_style : CapStyle
  join_style : JoinStyle
  deriving DecidableEq

/-- The unhandled Python exceptions the interpreter can raise. -/
inductive InterpError where
  | indexError : InterpError
  | valueError : InterpError
  | keyError : InterpError
  | assertionError : InterpError
  | typeError : InterpError
  | notImplementedError : InterpError
  deriving DecidableEq

/-- Interpreter state. `current_line` is `none` when no stroke is armed
(Python `[]` initially or `None` after `S`, both falsy) and
`some (start, pts)` when armed, where `start` is the slot `current_line[0]`
written by `m` (initially Python `None`) and `pts` the points appended by
`l`. -/
structure GfxState where
  current_line : Option (Option Point × List Point)
  width : Option ℚ
  cap_style : Option CapStyle
  join_style : Option JoinStyle
  deriving DecidableEq

def initState : GfxState := ⟨none, none, none, none⟩

/-- `(float(args[0]), float(args[1]))` with Python's evaluation order:
missing argument -> `IndexError`, unparseable -> `ValueError`. -/
def parsePoint (args : List String) : Except InterpError Point :=
  match args.get? 0 with
  | none => Except.error InterpError.indexError
  | some a0 =>
    match parseFloat a0 with
    | none => Except.error InterpError.valueError
    | some x =>
      match args.get? 1 with
      | none => Except.error InterpError.indexError
      | some a1 =>
        match parseFloat a1 with
        | none => Except.error InterpError.valueError
        | some y => Except.ok (x, y)

/-- `float(args[0])`. -/
def parseFloatArg (args : List String) : Except InterpError ℚ :=
  match args.get? 0 with
  | none => Except.error InterpError.indexError
  | some a0 =>
    match parseFloat a0 with
    | none => Except.error InterpError.valueError
    | some x => Except.ok x

/-- `int(args[0])`. -/
def parseIntArg (args : List String) : Except InterpError Int :=
  match args.get? 0 with
  | none => Except.error InterpError.indexError
  | some a0 =>
    match parseInt a0 with
    | none => Except.error InterpError.valueError
    | some i => Except.ok i

/-- One iteration of the `for op, args in tokenize_graphics(...)` loop of
`highlighter_lines`: the next state and the strokes yielded by this
operation. The yellow-`RG` test comes first (re-arming even while armed);
with no stroke armed every other operation is inert. -/
def interpStep (s : GfxState) (record : String × List String) :
    Except InterpError (GfxState × List Stroke) :=
  if record = ("RG", YELLOW) then
    Except.ok ({ s with current_line := some (none, []) }, [])
  else
    match s.current_line with
    | none => Except.ok (s, [])
    | some (start, pts) =>
      let op := record.1
      let args := record.2
      if op = "m" then
        match parsePoint args with
        | Except.error e => Except.error e
        | Except.ok p => Except.ok ({ s with current_line := some (some p, pts) }, [])
      else if op = "j" then
        match parseIntArg args with
        | Except.error e => Except.error e
        | Except.ok i =>
          match JOIN_STYLES.lookup i with
          | none => Except.error InterpError.keyError
          | some st => Except.ok ({ s with join_style := some st }, [])
      else if op = "J" then
        match parseIntArg args with
        | Except.error e => Except.error e
        | Except.ok i =>
          match CAP_STYLES.lookup i with
          | none => Except.error InterpError.keyError
          | some st => Except.ok ({ s with cap_style := some st }, [])
      else if op = "w" then
        match parseFloatArg args with
        | Except.error e => Except.error e
        | Except.ok x => Except.ok ({ s with width := some x }, [])
      else if op = "l" then
        match parsePoint args with
        | Except.error e => Except.error e
        | Except.ok p =>
          Except.ok ({ s with current_line := some (start, pts ++ [p]) }, [])
      else if op = "S" then
        match s.width with
        | none => Except.error InterpError.assertionError
        | some w =>
          match s.cap_style with
          | none => Except.error InterpError.assertionError
          | some c =>
            match s.join_style with
            | none => Except.error InterpError.assertionError
            | some j =>
              if pts = [] then Except.error InterpError.assertionError
              else
                match start with
                | none => Except.error InterpError.typeError
                | some p0 => Except.ok (initState, [⟨p0 :: pts, w, c, j⟩])
      else if op = "cm" then
        if args = ["1", "0", "0", "1", "0", "0"] then Except.ok (s, [])
        else Except.error InterpError.notImplementedError
      else Except.ok (s, [])

/-- The interpreter loop over the record sequence, collecting yields; a
raised exception aborts the run. -/
def runInterp : GfxState → List (String × List String) → Except InterpError (List Stroke)
  | _, [] => Except.ok []
  | s, record :: records =>
    match interpStep s record with
    | Except.error e => Except.error e
    | Except.ok (s2, out) =>
      match runInterp s2 records with
      | Except.error e => Except.error e
      | Except.ok rest => Except.ok (out ++ rest)

/-- `highlighter_lines` (parsing.py), over the whitespace-split token list of
one content stream. -/
def highlighter_lines (tokens : List String) : Except InterpError (List Stroke) :=
  runInterp initState (tokenize_graphics tokens)

instance {ε α : Type} [DecidableEq ε] [DecidableEq α] : DecidableEq (Except ε α) :=
  fun x y =>
    match x, y with
    | Except.error a, Except.error b =>
      if h : a = b then isTrue (by rw [h]) else isFalse (by simp [h])
    | Except.ok a, Except.ok b =>
      if h : a = b then isTrue (by rw [h]) else isFalse (by simp [h])
    | Except.error _, Except.ok _ => isFalse (by simp)
    | Except.ok _, Except.error _ => isFalse (by simp)

theorem runInterp_no_yellow (records : List (String × List String))
    (h : ∀ r ∈ records, r ≠ ("RG", YELLOW)) :
    runInterp initState records = Except.ok [] := by
  induction records with
  | nil => rfl
  | cons r recs ih =>
    have hr : r ≠ ("RG", YELLOW) := h r (by simp)
    have hstep : interpStep initState r = Except.ok (initState, []) := by
      simp [interpStep, hr, initState]
    rw [runInterp, hstep]
    simp [ih (fun r2 hr2 => h r2 (by simp [hr2]))]

/-- C6: the interpreter arms only on an `RG` record whose argument strings are
exactly the `YELLOW` triple. (1) A stream with no such record yields no
strokes and no error, whatever else it contains; (2) in particular a complete
stroke bracket whose `RG` triple differs in one final digit yields zero
strokes; (3) positive control: the identical bracket with the exact triple
yields exactly one stroke. -/
theorem yellow_color_exact_match :
    (∀ tokens : List String,
      (∀ r ∈ tokenize_graphics tokens, r ≠ ("RG", YELLOW)) →
      highlighter_lines tokens = Except.ok []) ∧
    (highlighter_lines ["q", "1", "0.952941", "0.658825", "RG", "10", "w", "1", "J",
        "1", "j", "0", "0", "m", "10", "0", "l", "S", "Q"] = Except.ok []) ∧
    (highlighter_lines ["q", "1", "0.952941", "0.658824", "RG", "10", "w", "1", "J",
        "1", "j", "0", "0", "m", "10", "0", "l", "S", "Q"]
      = Except.ok [⟨[(0, 0), (10, 0)], 10, CapStyle.round, JoinStyle.round⟩]) := by
  refine ⟨?_, by decide, by decide⟩
  intro tokens h
  exact runInterp_no_yellow (tokenize_graphics tokens) h

/-- Witness for `yellow_color_exact_match`: the no-yellow-record clause at
the one-token stream `["S"]`. -/
theorem yellow_color_exact_match_witness :
    highlighter_lines ["S"] = Except.ok [] :=
  yellow_color_exact_match.1 ["S"] (by decide)

theorem capJoinLookup_none (i : Int) (h : ¬(i = 1 ∨ i = 2 ∨ i = 3)) :
    CAP_STYLES.lookup i = none ∧ JOIN_STYLES.lookup i = none := by
  push_neg at h
  obtain ⟨h1, h2, h3⟩ := h
  have e1 : (i == 1) = false := beq_eq_false_iff_ne.2 h1
  have e2 : (i == 2) = false := beq_eq_false_iff_ne.2 h2
  have e3 : (i == 3) = false := beq_eq_false_iff_ne.2 h3
  constructor <;> simp [CAP_STYLES, JOIN_STYLES, List.lookup, e1, e2, e3]

/-- C10: the style tables are total only on {1, 2, 3}: a `J` or `j` operator
reaching the armed interpreter with any other integer argument (such as the
PDF-standard cap value 0) is an unhandled `KeyError`, not ignored and not
mapped to a default. The last clause runs a full otherwise-valid yellow
bracket containing `0 J`. -/
theorem style_table_partiality :
    (∀ i : Int,
      ((CAP_STYLES.lookup i).isSome = true ↔ (i = 1 ∨ i = 2 ∨ i = 3)) ∧
      ((JOIN_STYLES.lookup i).isSome = true ↔ (i = 1 ∨ i = 2 ∨ i = 3))) ∧
    (∀ (s : GfxState) (start : Option Point) (pts : List Point)
        (args : List String) (a0 : String) (i : Int),
      s.current_line = some (start, pts) → args.get? 0 = some a0 →
      parseInt a0 = some i → ¬(i = 1 ∨ i = 2 ∨ i = 3) →
      interpStep s ("J", args) = Except.error InterpError.keyError ∧
      interpStep s ("j", args) = Except.error InterpError.keyError) ∧
    (highlighter_lines ["1", "0.952941", "0.658824", "RG", "10", "w", "0", "J",
        "1", "j", "0", "0", "m", "10", "0", "l", "S"]
      = Except.error InterpError.keyError) := by
  refine ⟨?_, ?_, by decide⟩
  · intro i
    constructor
    · constructor
      · intro hsome
        by_contra hout
        rw [(capJoinLookup_none i hout).1] at hsome
        simp at hsome
      · rintro (rfl | rfl | rfl) <;> decide
    · constructor
      · intro hsome
        by_contra hout
        rw [(capJoinLookup_none i hout).2] at hsome
        simp at hsome
      · rintro (rfl | rfl | rfl) <;> decide
  · intro s start pts args a0 i hcl h0 hi hout
    have hcap := (capJoinLookup_none i hout).1
    have hjoin := (capJoinLookup_none i hout).2
    rw [List.get?_eq_getElem?] at h0
    constructor
    · simp only [interpStep]
      rw [if_neg (by simp), hcl]
      simp [parseIntArg, h0, hi, hcap]
    · simp only [interpStep]
      rw [if_neg (by simp), hcl]
      simp [parseIntArg, h0, hi, hjoin]

/-- Witness for `style_table_partiality`: the armed-step clause at the freshly
armed state with argument `"0"` (integer 0, the PDF-standard butt cap). -/
theorem style_table_partiality_witness :
    interpStep ⟨some (none, []), none, none, none⟩ ("J", ["0"])
        = Except.error InterpError.keyError ∧
    interpStep ⟨some (none, []), none, none, none⟩ ("j", ["0"])
        = Except.error InterpError.keyError :=
  style_table_partiality.2.1 ⟨some (none, []), none, none, none⟩ none [] ["0"] "0" 0
    rfl rfl (by decide) (by decide)

/-! ## Coordinate normalizer (`extract.py`, `coordinate_transformer`) -/

/-- A fitz rectangle `page.CropBox = (x0, y0, x1, y1)`; `page.CropBox[-1]`
is the last coordinate `y1`. -/
structure CropBox where
  x0 : ℚ
  y0 : ℚ
  x1 : ℚ
  y1 : ℚ
  deriving DecidableEq

/-- `to_fitz_coord` (extract.py): `(x, y) -> (x, page.CropBox[-1] - y)`. -/
def to_fitz_coord (cb : CropBox) (p : Point) : Point := (p.1, cb.y1 - p.2)

/-- `ops.transform(to_fitz_coord, poly)`: the coordinate map applied to every
point of every ring of the shape. -/
def coordinate_transformer (cb : CropBox) (s : ShapePoly) : ShapePoly :=
  ⟨s.exterior.map (to_fitz_coord cb),
   s.interiors.map (fun r => r.map (to_fitz_coord cb))⟩

/-- Modelled from the spec wording, for comparison with the code: the
normalizer using the crop-box HEIGHT (top y minus bottom y) as
`page_height`. -/
def to_fitz_coord_spec (cb : CropBox) (p : Point) : Point :=
  (p.1, (cb.y1 - cb.y0) - p.2)

/-- The spec-worded transform applied to a whole shape. -/
def coordinate_transformer_spec (cb : CropBox) (s : ShapePoly) : ShapePoly :=
  ⟨s.exterior.map (to_fitz_coord_spec cb),
   s.interiors.map (fun r => r.map (to_fitz_coord_spec cb))⟩

/-- C9 counterexample: for the crop box `(0, 5, 100, 50)` (bottom y = 5, so
height 45) the code maps `(0,0)` to `(0, 50)` using the crop-box top
coordinate, not to `(0, 45)` as the claim's `page_height = top - bottom`
formula demands. -/
theorem coordinate_normalizer_counterexample :
    coordinate_transformer ⟨0, 5, 100, 50⟩ ⟨[(0, 0)], []⟩ = ⟨[(0, 50)], []⟩ ∧
    coordinate_transformer_spec ⟨0, 5, 100, 50⟩ ⟨[(0, 0)], []⟩ = ⟨[(0, 45)], []⟩ ∧
    coordinate_transformer ⟨0, 5, 100, 50⟩ ⟨[(0, 0)], []⟩
      ≠ coordinate_transformer_spec ⟨0, 5, 100, 50⟩ ⟨[(0, 0)], []⟩ := by
  refine ⟨?_, ?_, ?_⟩ <;>
    simp [coordinate_transformer, coordinate_transformer_spec, to_fitz_coord,
      to_fitz_coord_spec, ShapePoly.mk.injEq] <;> norm_num

/-- C9 amended: the normalizer is the pure map
`(x, y) -> (x, cropBox.y1 - y)` on every point of the shape, where `y1` is
the crop box's last (top) coordinate; it coincides with the spec's
`page_height - y` formula for all shapes exactly when the crop box's bottom
y coordinate is zero. -/
theorem coordinate_normalizer_amended (cb : CropBox) :
    (∀ s : ShapePoly, coordinate_transformer cb s =
      ⟨s.exterior.map (fun p => (p.1, cb.y1 - p.2)),
       s.interiors.map (fun r => r.map (fun p => (p.1, cb.y1 - p.2)))⟩) ∧
    ((∀ s : ShapePoly, coordinate_transformer cb s = coordinate_transformer_spec cb s)
      ↔ cb.y0 = 0) := by
  constructor
  · intro s
    rfl
  · constructor
    · intro h
      have h1 := h ⟨[(0, 0)], []⟩
      simp [coordinate_transformer, coordinate_transformer_spec, to_fitz_coord,
        to_fitz_coord_spec] at h1
      linarith
    · intro h0 s
      have hfun : to_fitz_coord cb = to_fitz_coord_spec cb := by
        funext p
        simp [to_fitz_coord, to_fitz_coord_spec, h0]
      simp [coordinate_transformer, coordinate_transformer_spec, hfun]

/-- Witness for `coordinate_normalizer_amended`: with a zero crop-box bottom
the code transform and the spec's height-based transform agree on a concrete
shape. -/
theorem coordinate_normalizer_amended_witness :
    coordinate_transformer ⟨0, 0, 100, 50⟩ ⟨[(2, 3)], []⟩
      = coordinate_transformer_spec ⟨0, 0, 100, 50⟩ ⟨[(2, 3)], []⟩ :=
  (coordinate_normalizer_amended ⟨0, 0, 100, 50⟩).2.mpr rfl ⟨[(2, 3)], []⟩

/-! ## Page pipeline (`extract.py`, `extract_highlights`)

`extract_highlights` iterates the document's pages. Work done by the external
libraries is a per-page input here: the per-page merged highlight polygons
(fitz content streams + shapely union) and the per-page `(word, box)` records
(fitz `getText("words")`). The shapely word-geometry test used inside
`extract_text_highlights` is a parameter `isHl`, so the theorems hold for
every containment semantics. -/

/-- `classify_highlights` (extract.py): split the merged polygons by their
classification, preserving order (the source's append loop). -/
def classify_highlights (polys : List ShapePoly) (clipping_area_threshold : ℚ) :
    List ShapePoly × List ShapePoly :=
  (polys.filter (fun p =>
      decide (classify_highlight p clipping_area_threshold = HighlightType.TEXTUAL)),
   polys.filter (fun p =>
      decide (classify_highlight p clipping_area_threshold = HighlightType.SELECTION)))

/-- `WordSelectionMethod[name]` (the Python `Enum` member lookup in
`extract_highlights`); `none` models the `KeyError` an unknown name raises. -/
def wordSelectionMethodOfName (name : String) : Option WordSelectionMethod :=
  if name = "CENTROID" then some WordSelectionMethod.CENTROID
  else if name = "AREA_RATIO" then some WordSelectionMethod.AREA_RATIO
  else none

/-- The per-page inputs supplied by the external PDF library: the page's
merged highlight polygons (empty iff the page's content streams held no
highlighter lines, the `if not highlight_lines: continue` guard) and its word
records in reading order. -/
structure PageInput where
  highlight_polys : List ShapePoly
  words : List (String × Box)

/-- The unhandled exception of the page loop. -/
inductive PipeError where
  | keyError : PipeError
  deriving DecidableEq

/-- The page loop of `extract_highlights`, with the 1-based page number `n`
explicit. Returns the two page-keyed accumulators (text runs and clip
polygons) or the first raised error. A page with textual polygons converts
the configured method name with `WordSelectionMethod[...]` *at that point*;
pages without textual polygons never perform the lookup. -/
def extract_highlights_from
    (isHl : WordSelectionMethod → List ShapePoly → Box → Bool)
    (max_skip_len : Nat) (word_selection_method : String)
    (clip_area_threshold : ℚ) :
    Nat → List PageInput →
      Except PipeError (List (Nat × List String) × List (Nat × List ShapePoly))
  | _, [] => Except.ok ([], [])
  | n, page :: rest =>
    if page.highlight_polys.isEmpty then
      extract_highlights_from isHl max_skip_len word_selection_method
        clip_area_threshold (n + 1) rest
    else
      let textPolys := (classify_highlights page.highlight_polys clip_area_threshold).1
      let selPolys := (classify_highlights page.highlight_polys clip_area_threshold).2
      let clipEntries : List (Nat × List ShapePoly) :=
        if selPolys.isEmpty then [] else [(n, selPolys)]
      let textResult : Except PipeError (List (Nat × List String)) :=
        if textPolys.isEmpty then Except.ok []
        else
          match wordSelectionMethodOfName word_selection_method with
          | none => Except.error PipeError.keyError
          | some m =>
            Except.ok [(n, extract_text_highlights
                (page.words.map (fun wb => (wb.1, isHl m textPolys wb.2)))
                max_skip_len)]
      match textResult with
      | Except.error e => Except.error e
      | Except.ok textEntries =>
        match extract_highlights_from isHl max_skip_len word_selection_method
            clip_area_threshold (n + 1) rest with
        | Except.error e => Except.error e
        | Except.ok (texts, clips) =>
          Except.ok (textEntries ++ texts, clipEntries ++ clips)

/-- `extract_highlights` (extract.py): the loop from page 1. -/
def extract_highlights
    (isHl : WordSelectionMethod → List ShapePoly → Box → Bool)
    (pages : List PageInput) (max_skip_len : Nat)
    (word_selection_method : String) (clip_area_threshold : ℚ) :
    Except PipeError (List (Nat × List String) × List (Nat × List ShapePoly)) :=
  extract_highlights_from isHl max_skip_len word_selection_method
    clip_area_threshold 1 pages

theorem extract_from_ok_of_no_textual
    (isHl : WordSelectionMethod → List ShapePoly → Box → Bool)
    (max_skip_len : Nat) (name : String) (thr : ℚ) (pages : List PageInput)
    (h : ∀ page ∈ pages, (classify_highlights page.highlight_polys thr).1 = []) :
    ∀ n : Nat, ∃ res,
      extract_highlights_from isHl max_skip_len name thr n pages = Except.ok res := by
  induction pages with
  | nil => exact fun n => ⟨([], []), rfl⟩
  | cons page rest ih =>
    intro n
    have hpage : (classify_highlights page.highlight_polys thr).1 = [] :=
      h page (by simp)
    have hrest : ∀ p ∈ rest, (classify_highlights p.highlight_polys thr).1 = [] :=
      fun p hp => h p (by simp [hp])
    by_cases hemp : page.highlight_polys.isEmpty
    · obtain ⟨res, hres⟩ := ih hrest (n + 1)
      exact ⟨res, by simp only [extract_highlights_from, if_pos hemp]; exact hres⟩
    · obtain ⟨⟨texts, clips⟩, hres⟩ := ih hrest (n + 1)
      simp only [extract_highlights_from, if_neg hemp, hpage, hres]
      simp [hpage]

theorem extract_from_error_of_textual
    (isHl : WordSelectionMethod → List ShapePoly → Box → Bool)
    (max_skip_len : Nat) (name : String) (thr : ℚ) (pages : List PageInput)
    (hname : wordSelectionMethodOfName name = none)
    (h : ∃ page ∈ pages, (classify_highlights page.highlight_polys thr).1 ≠ []) :
    ∀ n : Nat, extract_highlights_from isHl max_skip_len name thr n pages
      = Except.error PipeError.keyError := by
  induction pages with
  | nil => simp at h
  | cons page rest ih =>
    intro n
    by_cases hpage : (classify_highlights page.highlight_polys thr).1 = []
    · have hrest : ∃ p ∈ rest, (classify_highlights p.highlight_polys thr).1 ≠ [] := by
        obtain ⟨p, hp, hne⟩ := h
        rcases List.mem_cons.1 hp with rfl | hp2
        · exact absurd hpage hne
        · exact ⟨p, hp2, hne⟩
      have htail := ih hrest (n + 1)
      by_cases hemp : page.highlight_polys.isEmpty
      · simp only [extract_highlights_from, if_pos hemp]
        exact htail
      · simp only [extract_highlights_from, if_neg hemp, hpage]
        simp [hpage, htail]
    · have hemp : ¬page.highlight_polys.isEmpty := by
        intro hcon
        rw [List.isEmpty_iff] at hcon
        apply hpage
        simp [classify_highlights, hcon]
      have hne : ¬(classify_highlights page.highlight_polys thr).1.isEmpty := by
        simpa [List.isEmpty_iff] using hpage
      simp only [extract_highlights_from, if_neg hemp]
      simp [List.isEmpty_iff, hpage, hname]

/-- C8 counterexample: with the unknown policy name `"BOGUS"`, a two-page
document with no textual highlight polygons (one page with no highlights at
all, one whose only merged polygon classifies as `Selection`) completes
successfully — the claim says an unknown name fails even on documents with
no textual highlights, at configuration-validation time. -/
theorem unknown_method_counterexample :
    extract_highlights (fun _ _ _ => false)
      [⟨[], [("hello", ⟨0, 0, 1, 1⟩)]⟩,
       ⟨[⟨[(-5, -5), (45, -5), (45, 45), (-5, 45)],
          [[(1, 1), (41, 1), (41, 41), (1, 41)]]⟩], []⟩]
      3 "BOGUS" 1000
      = Except.ok ([],
          [(2, [⟨[(-5, -5), (45, -5), (45, 45), (-5, 45)],
                 [[(1, 1), (41, 1), (41, 41), (1, 41)]]⟩])]) := by
  have hclass : classify_highlight
      ⟨[(-5, -5), (45, -5), (45, 45), (-5, 45)],
       [[(1, 1), (41, 1), (41, 41), (1, 41)]]⟩ 1000 = HighlightType.SELECTION := by
    simp only [classify_highlight, ringArea, shoelaceSum, shoelaceAux, cross]
    norm_num
  simp [extract_highlights, extract_highlights_from, classify_highlights, hclass,
    -Prod.mk_zero_zero, -Prod.mk_one_one]

/-- C8 amended: an unknown word-selection policy name (any name other than
`"CENTROID"` and `"AREA_RATIO"`) is NOT caught at configuration-validation
time: the `Enum` lookup runs lazily inside the page loop, only when a page
with textual highlight polygons is reached. A run over a document with no
textual highlight polygons succeeds despite the bogus name; a run over a
document with at least one such page fails with the `KeyError`. -/
theorem unknown_method_lazy_failure :
    (∀ name : String, wordSelectionMethodOfName name = none ↔
      (name ≠ "CENTROID" ∧ name ≠ "AREA_RATIO")) ∧
    (∀ (isHl : WordSelectionMethod → List ShapePoly → Box → Bool)
        (pages : List PageInput) (max_skip_len : Nat) (name : String) (thr : ℚ),
      wordSelectionMethodOfName name = none →
      ((∀ page ∈ pages, (classify_highlights page.highlight_polys thr).1 = []) →
        ∃ res, extract_highlights isHl pages max_skip_len name thr = Except.ok res) ∧
      ((∃ page ∈ pages, (classify_highlights page.highlight_polys thr).1 ≠ []) →
        extract_highlights isHl pages max_skip_len name thr
          = Except.error PipeError.keyError)) := by
  constructor
  · intro name
    constructor
    · intro hnone
      constructor
      · intro hcon
        rw [hcon] at hnone
        simp [wordSelectionMethodOfName] at hnone
      · intro hcon
        rw [hcon] at hnone
        simp [wordSelectionMethodOfName] at hnone
    · intro ⟨h1, h2⟩
      simp [wordSelectionMethodOfName, h1, h2]
  · intro isHl pages max_skip_len name thr hname
    constructor
    · intro h
      exact extract_from_ok_of_no_textual isHl max_skip_len name thr pages h 1
    · intro h
      exact extract_from_error_of_textual isHl max_skip_len name thr pages hname h 1

/-- Witness for `unknown_method_lazy_failure`: with the unknown name
`"BOGUS"`, a document consisting of one page with textual highlight polygons
(a polygon with no interior rings classifies `Textual`) fails with the
`KeyError`. -/
theorem unknown_method_lazy_failure_witness :
    extract_highlights (fun _ _ _ => false)
      [⟨[⟨[(0, 0), (10, 0), (10, 10), (0, 10)], []⟩], [("hi", ⟨0, 0, 1, 1⟩)]⟩]
      3 "BOGUS" 1000 = Except.error PipeError.keyError := by
  have h := (unknown_method_lazy_failure.2 (fun _ _ _ => false)
      [⟨[⟨[(0, 0), (10, 0), (10, 10), (0, 10)], []⟩], [("hi", ⟨0, 0, 1, 1⟩)]⟩]
      3 "BOGUS" 1000 (by simp [wordSelectionMethodOfName])).2
  apply h
  refine ⟨⟨[⟨[(0, 0), (10, 0), (10, 10), (0, 10)], []⟩], [("hi", ⟨0, 0, 1, 1⟩)]⟩,
    by simp, ?_⟩
  simp [classify_highlights, classify_highlight]
